import Mathlib

/-!
Verification of the transaction-local write-staging core of a multi-version
storage engine (terrier), centred on
`src/include/transaction/transaction_context.h`.

The `TransactionContext` class is embedded as a Lean structure with explicit
state passing; its three staging operations (`UndoRecordForUpdate`,
`UndoRecordForInsert`, `StageWrite`) are translated directly from the header.
The collaborators the header uses but whose sources are not part of this
excerpt (the growable record buffers, the segment pool, the undo/redo record
layouts) are modelled from the specification, sections 3 and 4, and are marked
as such in their doc comments.
-/

namespace Terrier

/-- Logical timestamp (`timestamp_t` in `common/typedefs.h`): an opaque
monotonically-comparable clock value, modelled as a natural number. -/
abbrev timestamp_t := Nat

/-- Modelled from the spec: uncommitted transaction ids live in "a
distinguished high range" of the timestamp space, committed timestamps in the
ordinary low range, with a single ordering across both (spec section 3). -/
def uncommittedMin : Nat := 2 ^ 63

/-- A timestamp in the reserved high (uncommitted) range. -/
def isUncommitted (t : timestamp_t) : Prop := uncommittedMin ≤ t

/-- A timestamp in the ordinary committed range. -/
def isCommittedTs (t : timestamp_t) : Prop := t < uncommittedMin

instance (t : timestamp_t) : Decidable (isUncommitted t) := by
  unfold isUncommitted; infer_instance

instance (t : timestamp_t) : Decidable (isCommittedTs t) := by
  unfold isCommittedTs; infer_instance

/-- The `storage::TupleSlot` handle: an opaque handle identifying one row's physical
storage location (glossary); modelled as a block id plus offset. -/
structure TupleSlot where
  block : Nat
  offset : Nat
deriving DecidableEq, Repr

/-- The `storage::DataTable` handle: treated by this core as an opaque handle
(spec section 6); modelled by its identity. -/
structure DataTable where
  oid : Nat
deriving DecidableEq, Repr

/-- The `storage::ProjectedRow` type: a compact description of a subset of a tuple's
columns and their values (glossary); modelled as a list of
(column id, value) pairs. -/
structure ProjectedRow where
  cols : List (Nat × Nat)
deriving DecidableEq, Repr

/-- The `storage::ProjectedRowInitializer` type: the schema for allocating space for a
projected row (glossary); modelled as the list of column ids. -/
structure ProjectedRowInitializer where
  colIds : List Nat
deriving DecidableEq, Repr

/-- Modelled from the spec: fixed per-row header bytes of the projected-row
encoding (the encoding itself is out of scope, section 1; only its size
arithmetic matters here). -/
def rowHeaderSize : Nat := 8

/-- Modelled from the spec: per-column bytes of the projected-row encoding. -/
def colEntrySize : Nat := 8

/-- Byte size of a projected row. -/
def ProjectedRow.size (r : ProjectedRow) : Nat :=
  rowHeaderSize + colEntrySize * r.cols.length

/-- Byte size of the projected row an initializer describes. -/
def ProjectedRowInitializer.ProjectedRowSize (i : ProjectedRowInitializer) : Nat :=
  rowHeaderSize + colEntrySize * i.colIds.length

/-- The blank projected row an initializer lays out, before the caller fills
in values (all values zero in the model). -/
def ProjectedRowInitializer.InitializeRow (i : ProjectedRowInitializer) : ProjectedRow :=
  ⟨i.colIds.map fun c => (c, 0)⟩

/-- Modelled from the spec: an Undo Record's payload is tagged by write kind;
an update carries only the columns being changed, an insert carries the
initializer-shaped row needed to remove the slot on rollback
(spec sections 3 and 4.3). -/
inductive UndoPayload
  | update (delta : ProjectedRow)
  | insert (blank : ProjectedRow)
deriving DecidableEq, Repr

/-- Modelled from the spec: `storage::UndoRecord` — a before-image entry
holding the owning transaction's identity stamp, target table, target slot,
and payload (spec section 3). The intra-chain link is owned by the table's
version chain, outside this core. -/
structure UndoRecord where
  timestamp : timestamp_t
  table : DataTable
  slot : TupleSlot
  payload : UndoPayload
deriving DecidableEq, Repr

/-- Modelled from the spec: fixed header bytes of an Undo Record. -/
def undoHeaderSize : Nat := 40

/-- Modelled from the spec: `UndoRecord::Size(const ProjectedRow &)` — the
space an update undo record needs, computable before allocation
(spec section 4.3). -/
def UndoRecord.Size (redo : ProjectedRow) : Nat :=
  undoHeaderSize + redo.size

/-- Modelled from the spec: `UndoRecord::Size(const ProjectedRowInitializer &)`
— the space an insert undo record needs. -/
def UndoRecord.SizeForInsert (i : ProjectedRowInitializer) : Nat :=
  undoHeaderSize + i.ProjectedRowSize

/-- Modelled from the spec: `UndoRecord::Initialize` for an update — writes
header and payload into caller-provided space (spec section 4.3); in the model
it builds the record value placed at the reserved entry. -/
def UndoRecord.Initialize (txn_id : timestamp_t) (slot : TupleSlot) (table : DataTable)
    (redo : ProjectedRow) : UndoRecord :=
  ⟨txn_id, table, slot, .update redo⟩

/-- Modelled from the spec: `UndoRecord::Initialize` for an insert. -/
def UndoRecord.InitializeForInsert (txn_id : timestamp_t) (slot : TupleSlot) (table : DataTable)
    (i : ProjectedRowInitializer) : UndoRecord :=
  ⟨txn_id, table, slot, .insert i.InitializeRow⟩

/-- The exact byte size an undo record occupies, as a function of the record:
used to state the two-phase (size before space) discipline. -/
def undoRecSize : UndoRecord → Nat
  | ⟨_, _, _, .update delta⟩ => UndoRecord.Size delta
  | ⟨_, _, _, .insert blank⟩ => undoHeaderSize + blank.size

/-- Modelled from the spec: `storage::RedoRecord` — a pending-write entry
holding the transaction's start timestamp, target table, target slot and the
projected-row payload of new values (spec sections 3 and 4.4). -/
structure RedoRecord where
  start_time : timestamp_t
  table : DataTable
  slot : TupleSlot
  delta : ProjectedRow
deriving DecidableEq, Repr

/-- Modelled from the spec: fixed header bytes of the `LogRecord` wrapper that
precedes the `RedoRecord` body inside a redo-buffer entry (spec section 2: the
Redo Buffer's segments are handed verbatim to the log subsystem, so each entry
is a full log record). The header is non-empty. -/
def logHeaderSize : Nat := 16

/-- Modelled from the spec: `RedoRecord::Size(const ProjectedRowInitializer &)`
— the space a full log record wrapping the redo body needs. -/
def RedoRecord.Size (i : ProjectedRowInitializer) : Nat :=
  logHeaderSize + i.ProjectedRowSize

/-- Modelled from the spec: `storage::LogRecord` — the write-ahead-log record
written at the head of a redo-buffer entry, with the `RedoRecord` embedded as
its body after the header (spec section 4.4). -/
structure LogRecord where
  size : Nat
  body : RedoRecord
deriving DecidableEq, Repr

/-- Modelled from the spec: `RedoRecord::Initialize` — writes a full log
record into caller-provided space, stamped with the transaction's start time
(spec section 4.4); in the model it builds the log-record value placed at the
reserved entry. -/
def RedoRecord.Initialize (start : timestamp_t) (table : DataTable) (slot : TupleSlot)
    (i : ProjectedRowInitializer) : LogRecord :=
  ⟨RedoRecord.Size i, ⟨start, table, slot, i.InitializeRow⟩⟩

/-- Modelled from the spec: fixed capacity in bytes of one pooled buffer
segment (spec section 4.1: fixed-size blocks). -/
def segmentCapacity : Nat := 4096

/-- Modelled from the spec: `storage::RecordBufferSegmentPool` — a shared
allocator of fixed-size segments; exhaustion is surfaced to the caller
(spec section 4.1). Modelled by the number of segments still available. -/
structure RecordBufferSegmentPool where
  available : Nat
deriving DecidableEq, Repr

/-- Modelled from the spec: acquire one segment from the pool, or fail
deterministically when the pool is exhausted. -/
def RecordBufferSegmentPool.Get (p : RecordBufferSegmentPool) :
    Option RecordBufferSegmentPool :=
  if p.available = 0 then none else some ⟨p.available - 1⟩

/-- The address of a byte within a buffer: which segment (in acquisition
order) and the offset inside it. Models a stable pointer into pooled
memory. -/
structure Addr where
  seg : Nat
  off : Nat
deriving DecidableEq, Repr

/-- A reserved entry: its segment, offset inside the segment, and byte
size. -/
structure Entry where
  seg : Nat
  off : Nat
  size : Nat
deriving DecidableEq, Repr

/-- The head (first byte) of a reserved entry. -/
def Entry.head (e : Entry) : Addr := ⟨e.seg, e.off⟩

/-- Pointer to the record body embedded after the log-record header:
`LogRecord::GetUnderlyingRecordBodyAs<RedoRecord>()` in the source. -/
def Addr.GetUnderlyingRecordBodyAs (a : Addr) : Addr :=
  ⟨a.seg, a.off + logHeaderSize⟩

/-- The error taxonomy of the staging core (spec section 7): segment-pool
exhaustion, and the fatal precondition violation of asking for an entry larger
than one segment. -/
inductive BufferError
  | sizeExceedsSegment
  | poolExhausted
deriving DecidableEq, Repr

/-- Modelled from the spec: the Growable Entry Buffer backing both
`storage::UndoBuffer` and `storage::RedoBuffer` — an append-only sequence of
variable-sized records chunked across pooled segments (spec section 4.2).
`segsUsed` counts segments acquired so far, `curUsed` the bytes used in the
current (last) segment, and `entries` the reserved entries together with the
record each one holds. -/
structure RecordBuffer (α : Type) where
  segsUsed : Nat
  curUsed : Nat
  entries : List (Entry × α)
deriving DecidableEq, Repr

/-- A fresh, empty buffer holding no segment yet. -/
def RecordBuffer.empty {α : Type} : RecordBuffer α := ⟨0, 0, []⟩

/-- Modelled from the spec: `new_entry(size)` — reserve `size` contiguous
bytes inside one segment (spec section 4.2). A request larger than a segment
is a fatal precondition violation that allocates nothing; when the current
segment lacks room (or none exists yet) a fresh segment is acquired from the
pool, which may be exhausted. On any error the buffer and pool are returned
unchanged. -/
def NewEntry {α : Type} (size : Nat) (buf : RecordBuffer α)
    (pool : RecordBufferSegmentPool) :
    Except BufferError Entry × RecordBuffer α × RecordBufferSegmentPool :=
  if segmentCapacity < size then
    (.error .sizeExceedsSegment, buf, pool)
  else if buf.segsUsed = 0 ∨ segmentCapacity < buf.curUsed + size then
    match pool.Get with
    | none => (.error .poolExhausted, buf, pool)
    | some pool' =>
        (.ok ⟨buf.segsUsed, 0, size⟩,
          { buf with segsUsed := buf.segsUsed + 1, curUsed := size }, pool')
  else
    (.ok ⟨buf.segsUsed - 1, buf.curUsed, size⟩,
      { buf with curUsed := buf.curUsed + size }, pool)

/-- Writing an initialized record into its freshly reserved entry: the second
phase of the two-phase protocol. Entries are append-only. -/
def RecordBuffer.write {α : Type} (buf : RecordBuffer α) (e : Entry) (r : α) :
    RecordBuffer α :=
  { buf with entries := buf.entries ++ [(e, r)] }

/-- The `transaction::TransactionContext` class (`transaction_context.h`, lines 21-100):
start timestamp, atomically readable/writable transaction id, one undo buffer
and one redo buffer. The atomic cell `txn_id_` is modelled as a plain value;
its single commit-time replacement is modelled by the lifecycle step relation
below. -/
structure TransactionContext where
  start_time_ : timestamp_t
  txn_id_ : timestamp_t
  undo_buffer_ : RecordBuffer UndoRecord
  redo_buffer_ : RecordBuffer LogRecord
deriving DecidableEq, Repr

/-- The constructor (`transaction_context.h`, lines 32-34): both buffers start
empty, drawing from the shared pool on demand. -/
def TransactionContext.mkCtx (start txn_id : timestamp_t) : TransactionContext :=
  ⟨start, txn_id, RecordBuffer.empty, RecordBuffer.empty⟩

/-- Accessor `TransactionContext::StartTime` (line 39). -/
def TransactionContext.StartTime (c : TransactionContext) : timestamp_t :=
  c.start_time_

/-- Accessor `TransactionContext::TxnId` (lines 44 and 49): the current value read from
the atomic cell. -/
def TransactionContext.TxnId (c : TransactionContext) : timestamp_t :=
  c.txn_id_

/-- The owning manager's single commit-time store into the atomic `txn_id_`
cell (spec section 4.5). -/
def TransactionContext.TxnIdStore (c : TransactionContext) (t : timestamp_t) :
    TransactionContext :=
  { c with txn_id_ := t }

/-- Method `TransactionContext::UndoRecordForUpdate` (lines 58-62): compute the
record's size, reserve exactly that space on the undo buffer, initialize an
undo record stamped with the current `txn_id_` there, and return a pointer to
the head of the reserved chunk. -/
def TransactionContext.UndoRecordForUpdate (c : TransactionContext)
    (pool : RecordBufferSegmentPool) (table : DataTable) (slot : TupleSlot)
    (redo : ProjectedRow) :
    Except BufferError Addr × TransactionContext × RecordBufferSegmentPool :=
  match NewEntry (UndoRecord.Size redo) c.undo_buffer_ pool with
  | (.error e, buf, pool') => (.error e, { c with undo_buffer_ := buf }, pool')
  | (.ok entry, buf, pool') =>
      let r := UndoRecord.Initialize c.txn_id_ slot table redo
      (.ok entry.head, { c with undo_buffer_ := buf.write entry r }, pool')

/-- Method `TransactionContext::UndoRecordForInsert` (lines 71-75): same protocol,
sized for the fresh-insert initializer. -/
def TransactionContext.UndoRecordForInsert (c : TransactionContext)
    (pool : RecordBufferSegmentPool) (table : DataTable) (slot : TupleSlot)
    (i : ProjectedRowInitializer) :
    Except BufferError Addr × TransactionContext × RecordBufferSegmentPool :=
  match NewEntry (UndoRecord.SizeForInsert i) c.undo_buffer_ pool with
  | (.error e, buf, pool') => (.error e, { c with undo_buffer_ := buf }, pool')
  | (.ok entry, buf, pool') =>
      let r := UndoRecord.InitializeForInsert c.txn_id_ slot table i
      (.ok entry.head, { c with undo_buffer_ := buf.write entry r }, pool')

/-- Method `TransactionContext::StageWrite` (lines 85-91): reserve space on the redo
buffer, initialize a full log record there stamped with `start_time_`, and
return the pointer to the `RedoRecord` body embedded inside it. -/
def TransactionContext.StageWrite (c : TransactionContext)
    (pool : RecordBufferSegmentPool) (table : DataTable) (slot : TupleSlot)
    (i : ProjectedRowInitializer) :
    Except BufferError Addr × TransactionContext × RecordBufferSegmentPool :=
  match NewEntry (RedoRecord.Size i) c.redo_buffer_ pool with
  | (.error e, buf, pool') => (.error e, { c with redo_buffer_ := buf }, pool')
  | (.ok entry, buf, pool') =>
      let log_record := RedoRecord.Initialize c.start_time_ table slot i
      (.ok entry.head.GetUnderlyingRecordBodyAs,
        { c with redo_buffer_ := buf.write entry log_record }, pool')

/-! ### Basic lemmas about `NewEntry` -/

/-- Reservation only: `NewEntry` never touches the entries already
written. -/
theorem NewEntry_entries {α : Type} (s : Nat) (b : RecordBuffer α)
    (p : RecordBufferSegmentPool) : ((NewEntry s b p).2.1).entries = b.entries := by
  unfold NewEntry
  split
  · rfl
  · split
    · split <;> rfl
    · rfl

/-- A successful reservation has exactly the requested size, fits entirely
inside one segment, and leaves previously written entries untouched. -/
theorem NewEntry_ok {α : Type} {s : Nat} {b : RecordBuffer α}
    {p : RecordBufferSegmentPool} {e : Entry} {b' : RecordBuffer α}
    {p' : RecordBufferSegmentPool} (h : NewEntry s b p = (.ok e, b', p')) :
    e.size = s ∧ e.off + e.size ≤ segmentCapacity ∧ b'.entries = b.entries := by
  unfold NewEntry at h
  split at h
  · simp at h
  · next hbig =>
    split at h
    · split at h
      · simp at h
      · simp only [Prod.mk.injEq, Except.ok.injEq] at h
        obtain ⟨he, hb, _⟩ := h
        subst he hb
        exact ⟨rfl, by simpa using Nat.le_of_not_lt hbig, rfl⟩
    · next hfits =>
      simp only [Prod.mk.injEq, Except.ok.injEq] at h
      obtain ⟨he, hb, _⟩ := h
      subst he hb
      refine ⟨rfl, ?_, rfl⟩
      have := Nat.le_of_not_lt (fun hc => hfits (Or.inr hc))
      simpa using this

/-- A failed reservation returns the buffer and the pool unchanged: nothing
is partially allocated. -/
theorem NewEntry_error {α : Type} {s : Nat} {b : RecordBuffer α}
    {p : RecordBufferSegmentPool} {err : BufferError} {b' : RecordBuffer α}
    {p' : RecordBufferSegmentPool} (h : NewEntry s b p = (.error err, b', p')) :
    b' = b ∧ p' = p := by
  unfold NewEntry at h
  split at h
  · simp only [Prod.mk.injEq, Except.error.injEq] at h
    exact ⟨h.2.1.symm, h.2.2.symm⟩
  · split at h
    · split at h
      · simp only [Prod.mk.injEq, Except.error.injEq] at h
        exact ⟨h.2.1.symm, h.2.2.symm⟩
      · simp at h
    · simp at h

/-- An oversized request always fails the precondition check, with the buffer
and pool returned unchanged. -/
theorem NewEntry_big {α : Type} {s : Nat} (b : RecordBuffer α)
    (p : RecordBufferSegmentPool) (hs : segmentCapacity < s) :
    NewEntry s b p = (.error .sizeExceedsSegment, b, p) := by
  unfold NewEntry
  rw [if_pos hs]

/-- Under the size precondition, the only possible failure is pool
exhaustion. -/
theorem NewEntry_error_classify {α : Type} {s : Nat} {b : RecordBuffer α}
    {p : RecordBufferSegmentPool} {err : BufferError} {b' : RecordBuffer α}
    {p' : RecordBufferSegmentPool} (hs : s ≤ segmentCapacity)
    (h : NewEntry s b p = (.error err, b', p')) : err = .poolExhausted := by
  unfold NewEntry at h
  rw [if_neg (Nat.not_lt.mpr hs)] at h
  split at h
  · split at h
    · simp only [Prod.mk.injEq, Except.error.injEq] at h
      exact h.1.symm
    · simp at h
  · simp at h

/-- When the pool can still supply a segment, a reservation satisfying the
size precondition always succeeds. -/
theorem NewEntry_success {α : Type} {s : Nat} (b : RecordBuffer α)
    (p : RecordBufferSegmentPool) (hs : s ≤ segmentCapacity)
    (hp : p.available ≠ 0) :
    ∃ e b' p', NewEntry s b p = (.ok e, b', p') := by
  unfold NewEntry
  rw [if_neg (Nat.not_lt.mpr hs)]
  split
  · unfold RecordBufferSegmentPool.Get
    rw [if_neg hp]
    exact ⟨_, _, _, rfl⟩
  · exact ⟨_, _, _, rfl⟩

/-! ### Characterization of the three staging operations -/

/-- Full description of a successful `UndoRecordForUpdate` call: one entry of
exactly the record's size is appended to the undo buffer, holding an undo
record stamped with the context's current `txn_id_`; the returned pointer is
the head of the reserved chunk; everything else in the context is
untouched. -/
theorem UndoRecordForUpdate_ok {c : TransactionContext}
    {pool : RecordBufferSegmentPool} {table : DataTable} {slot : TupleSlot}
    {redo : ProjectedRow} {a : Addr} {c' : TransactionContext}
    {p' : RecordBufferSegmentPool}
    (h : c.UndoRecordForUpdate pool table slot redo = (.ok a, c', p')) :
    ∃ e : Entry,
      a = e.head ∧ e.size = UndoRecord.Size redo ∧
      e.off + e.size ≤ segmentCapacity ∧
      c'.undo_buffer_.entries
        = c.undo_buffer_.entries ++ [(e, UndoRecord.Initialize c.txn_id_ slot table redo)] ∧
      c'.start_time_ = c.start_time_ ∧ c'.txn_id_ = c.txn_id_ ∧
      c'.redo_buffer_ = c.redo_buffer_ := by
  unfold TransactionContext.UndoRecordForUpdate at h
  rcases hne : NewEntry (UndoRecord.Size redo) c.undo_buffer_ pool with ⟨res, b2, p2⟩
  rw [hne] at h
  cases res with
  | error err => simp at h
  | ok entry =>
      simp only [Prod.mk.injEq, Except.ok.injEq] at h
      obtain ⟨ha, hc, _⟩ := h
      obtain ⟨hsize, hfit, hent⟩ := NewEntry_ok hne
      subst ha
      refine ⟨entry, rfl, hsize, hsize ▸ hfit, ?_, ?_, ?_, ?_⟩ <;>
        simp [← hc, RecordBuffer.write, hent]

/-- Full description of a successful `UndoRecordForInsert` call. -/
theorem UndoRecordForInsert_ok {c : TransactionContext}
    {pool : RecordBufferSegmentPool} {table : DataTable} {slot : TupleSlot}
    {i : ProjectedRowInitializer} {a : Addr} {c' : TransactionContext}
    {p' : RecordBufferSegmentPool}
    (h : c.UndoRecordForInsert pool table slot i = (.ok a, c', p')) :
    ∃ e : Entry,
      a = e.head ∧ e.size = UndoRecord.SizeForInsert i ∧
      e.off + e.size ≤ segmentCapacity ∧
      c'.undo_buffer_.entries
        = c.undo_buffer_.entries ++ [(e, UndoRecord.InitializeForInsert c.txn_id_ slot table i)] ∧
      c'.start_time_ = c.start_time_ ∧ c'.txn_id_ = c.txn_id_ ∧
      c'.redo_buffer_ = c.redo_buffer_ := by
  unfold TransactionContext.UndoRecordForInsert at h
  rcases hne : NewEntry (UndoRecord.SizeForInsert i) c.undo_buffer_ pool with ⟨res, b2, p2⟩
  rw [hne] at h
  cases res with
  | error err => simp at h
  | ok entry =>
      simp only [Prod.mk.injEq, Except.ok.injEq] at h
      obtain ⟨ha, hc, _⟩ := h
      obtain ⟨hsize, hfit, hent⟩ := NewEntry_ok hne
      subst ha
      refine ⟨entry, rfl, hsize, hsize ▸ hfit, ?_, ?_, ?_, ?_⟩ <;>
        simp [← hc, RecordBuffer.write, hent]

/-- Full description of a successful `StageWrite` call: one entry of exactly
the log record's size is appended to the redo buffer, holding a log record
whose redo body is stamped with `start_time_` and carries the given table and
slot; the returned pointer is the embedded body, not the entry head;
everything else in the context is untouched. -/
theorem StageWrite_ok {c : TransactionContext}
    {pool : RecordBufferSegmentPool} {table : DataTable} {slot : TupleSlot}
    {i : ProjectedRowInitializer} {a : Addr} {c' : TransactionContext}
    {p' : RecordBufferSegmentPool}
    (h : c.StageWrite pool table slot i = (.ok a, c', p')) :
    ∃ e : Entry,
      a = e.head.GetUnderlyingRecordBodyAs ∧ e.size = RedoRecord.Size i ∧
      e.off + e.size ≤ segmentCapacity ∧
      c'.redo_buffer_.entries
        = c.redo_buffer_.entries ++ [(e, RedoRecord.Initialize c.start_time_ table slot i)] ∧
      c'.start_time_ = c.start_time_ ∧ c'.txn_id_ = c.txn_id_ ∧
      c'.undo_buffer_ = c.undo_buffer_ := by
  unfold TransactionContext.StageWrite at h
  rcases hne : NewEntry (RedoRecord.Size i) c.redo_buffer_ pool with ⟨res, b2, p2⟩
  rw [hne] at h
  cases res with
  | error err => simp at h
  | ok entry =>
      simp only [Prod.mk.injEq, Except.ok.injEq] at h
      obtain ⟨ha, hc, _⟩ := h
      obtain ⟨hsize, hfit, hent⟩ := NewEntry_ok hne
      subst ha
      refine ⟨entry, rfl, hsize, hsize ▸ hfit, ?_, ?_, ?_, ?_⟩ <;>
        simp [← hc, RecordBuffer.write, hent]

/-- A failed `UndoRecordForUpdate` call changes nothing: the context and the
pool come back exactly as given, and under the size precondition the error can
only be pool exhaustion. -/
theorem UndoRecordForUpdate_error {c : TransactionContext}
    {pool : RecordBufferSegmentPool} {table : DataTable} {slot : TupleSlot}
    {redo : ProjectedRow} {err : BufferError} {c' : TransactionContext}
    {p' : RecordBufferSegmentPool}
    (h : c.UndoRecordForUpdate pool table slot redo = (.error err, c', p')) :
    c' = c ∧ p' = pool ∧
      (UndoRecord.Size redo ≤ segmentCapacity → err = .poolExhausted) := by
  unfold TransactionContext.UndoRecordForUpdate at h
  rcases hne : NewEntry (UndoRecord.Size redo) c.undo_buffer_ pool with ⟨res, b2, p2⟩
  rw [hne] at h
  cases res with
  | ok entry => simp at h
  | error e2 =>
      simp only [Prod.mk.injEq, Except.error.injEq] at h
      obtain ⟨he, hc, hp⟩ := h
      obtain ⟨hb, hpp⟩ := NewEntry_error hne
      subst he hb hpp
      exact ⟨hc ▸ rfl, hp.symm, fun hs => NewEntry_error_classify hs hne⟩

/-- A failed `UndoRecordForInsert` call changes nothing. -/
theorem UndoRecordForInsert_error {c : TransactionContext}
    {pool : RecordBufferSegmentPool} {table : DataTable} {slot : TupleSlot}
    {i : ProjectedRowInitializer} {err : BufferError} {c' : TransactionContext}
    {p' : RecordBufferSegmentPool}
    (h : c.UndoRecordForInsert pool table slot i = (.error err, c', p')) :
    c' = c ∧ p' = pool ∧
      (UndoRecord.SizeForInsert i ≤ segmentCapacity → err = .poolExhausted) := by
  unfold TransactionContext.UndoRecordForInsert at h
  rcases hne : NewEntry (UndoRecord.SizeForInsert i) c.undo_buffer_ pool with ⟨res, b2, p2⟩
  rw [hne] at h
  cases res with
  | ok entry => simp at h
  | error e2 =>
      simp only [Prod.mk.injEq, Except.error.injEq] at h
      obtain ⟨he, hc, hp⟩ := h
      obtain ⟨hb, hpp⟩ := NewEntry_error hne
      subst he hb hpp
      exact ⟨hc ▸ rfl, hp.symm, fun hs => NewEntry_error_classify hs hne⟩

/-- A failed `StageWrite` call changes nothing. -/
theorem StageWrite_error {c : TransactionContext}
    {pool : RecordBufferSegmentPool} {table : DataTable} {slot : TupleSlot}
    {i : ProjectedRowInitializer} {err : BufferError} {c' : TransactionContext}
    {p' : RecordBufferSegmentPool}
    (h : c.StageWrite pool table slot i = (.error err, c', p')) :
    c' = c ∧ p' = pool ∧
      (RedoRecord.Size i ≤ segmentCapacity → err = .poolExhausted) := by
  unfold TransactionContext.StageWrite at h
  rcases hne : NewEntry (RedoRecord.Size i) c.redo_buffer_ pool with ⟨res, b2, p2⟩
  rw [hne] at h
  cases res with
  | ok entry => simp at h
  | error e2 =>
      simp only [Prod.mk.injEq, Except.error.injEq] at h
      obtain ⟨he, hc, hp⟩ := h
      obtain ⟨hb, hpp⟩ := NewEntry_error hne
      subst he hb hpp
      exact ⟨hc ▸ rfl, hp.symm, fun hs => NewEntry_error_classify hs hne⟩

/-! ### Sequences of staging calls -/

/-- One staging call on a transaction context, with its arguments. -/
inductive StageOp
  | update (table : DataTable) (slot : TupleSlot) (redo : ProjectedRow)
  | insert (table : DataTable) (slot : TupleSlot) (i : ProjectedRowInitializer)
  | write (table : DataTable) (slot : TupleSlot) (i : ProjectedRowInitializer)
deriving DecidableEq, Repr

/-- Dispatch one staging call to the corresponding context method. -/
def applyOp (op : StageOp) (c : TransactionContext) (p : RecordBufferSegmentPool) :
    Except BufferError Addr × TransactionContext × RecordBufferSegmentPool :=
  match op with
  | .update t sl r => c.UndoRecordForUpdate p t sl r
  | .insert t sl i => c.UndoRecordForInsert p t sl i
  | .write t sl i => c.StageWrite p t sl i

/-- Run a sequence of staging calls, threading the context and pool. A call
that fails leaves both unchanged (the abort path allocates nothing), so the
run is total. -/
def applyOps : List StageOp → TransactionContext → RecordBufferSegmentPool →
    TransactionContext × RecordBufferSegmentPool
  | [], c, p => (c, p)
  | op :: ops, c, p => applyOps ops (applyOp op c p).2.1 (applyOp op c p).2.2

/-- One staging call extends each buffer's entry list by at most one appended
entry and never rewrites an existing one. -/
theorem applyOp_entries (op : StageOp) (c : TransactionContext)
    (p : RecordBufferSegmentPool) :
    (∃ l, ((applyOp op c p).2.1).undo_buffer_.entries
            = c.undo_buffer_.entries ++ l) ∧
    (∃ l, ((applyOp op c p).2.1).redo_buffer_.entries
            = c.redo_buffer_.entries ++ l) := by
  rcases hr : applyOp op c p with ⟨res, c', p'⟩
  cases res with
  | error err =>
      cases op with
      | update t sl r =>
          obtain ⟨hc, -, -⟩ := UndoRecordForUpdate_error hr
          simp [hc]
      | insert t sl i =>
          obtain ⟨hc, -, -⟩ := UndoRecordForInsert_error hr
          simp [hc]
      | write t sl i =>
          obtain ⟨hc, -, -⟩ := StageWrite_error hr
          simp [hc]
  | ok a =>
      cases op with
      | update t sl r =>
          obtain ⟨e, -, -, -, hu, -, -, hrb⟩ := UndoRecordForUpdate_ok hr
          exact ⟨⟨_, hu⟩, ⟨[], by simp [hrb]⟩⟩
      | insert t sl i =>
          obtain ⟨e, -, -, -, hu, -, -, hrb⟩ := UndoRecordForInsert_ok hr
          exact ⟨⟨_, hu⟩, ⟨[], by simp [hrb]⟩⟩
      | write t sl i =>
          obtain ⟨e, -, -, -, hrd, -, -, hub⟩ := StageWrite_ok hr
          exact ⟨⟨[], by simp [hub]⟩, ⟨_, hrd⟩⟩

/-- One staging call never changes the timestamps of the context. -/
theorem applyOp_timestamps (op : StageOp) (c : TransactionContext)
    (p : RecordBufferSegmentPool) :
    ((applyOp op c p).2.1).start_time_ = c.start_time_ ∧
    ((applyOp op c p).2.1).txn_id_ = c.txn_id_ := by
  rcases hr : applyOp op c p with ⟨res, c', p'⟩
  cases res with
  | error err =>
      cases op with
      | update t sl r =>
          obtain ⟨hc, -, -⟩ := UndoRecordForUpdate_error hr
          simp [hc]
      | insert t sl i =>
          obtain ⟨hc, -, -⟩ := UndoRecordForInsert_error hr
          simp [hc]
      | write t sl i =>
          obtain ⟨hc, -, -⟩ := StageWrite_error hr
          simp [hc]
  | ok a =>
      cases op with
      | update t sl r =>
          obtain ⟨e, -, -, -, -, hst, hid, -⟩ := UndoRecordForUpdate_ok hr
          exact ⟨hst, hid⟩
      | insert t sl i =>
          obtain ⟨e, -, -, -, -, hst, hid, -⟩ := UndoRecordForInsert_ok hr
          exact ⟨hst, hid⟩
      | write t sl i =>
          obtain ⟨e, -, -, -, -, hst, hid, -⟩ := StageWrite_ok hr
          exact ⟨hst, hid⟩

/-- Entry lists only ever grow by suffixes across a whole run. -/
theorem applyOps_entries (ops : List StageOp) (c : TransactionContext)
    (p : RecordBufferSegmentPool) :
    (∃ l, ((applyOps ops c p).1).undo_buffer_.entries
            = c.undo_buffer_.entries ++ l) ∧
    (∃ l, ((applyOps ops c p).1).redo_buffer_.entries
            = c.redo_buffer_.entries ++ l) := by
  induction ops generalizing c p with
  | nil => exact ⟨⟨[], by simp [applyOps]⟩, ⟨[], by simp [applyOps]⟩⟩
  | cons op ops ih =>
      obtain ⟨⟨l₁, h₁⟩, ⟨l₂, h₂⟩⟩ := applyOp_entries op c p
      obtain ⟨⟨m₁, g₁⟩, ⟨m₂, g₂⟩⟩ := ih (applyOp op c p).2.1 (applyOp op c p).2.2
      refine ⟨⟨l₁ ++ m₁, ?_⟩, ⟨l₂ ++ m₂, ?_⟩⟩ <;>
        simp [applyOps, g₁, g₂, h₁, h₂]

/-! ### The two size invariants of the two-phase staging protocol -/

/-- Every undo-buffer entry was reserved with exactly the byte size its record
requires. -/
def undoSizeInv (b : RecordBuffer UndoRecord) : Prop :=
  ∀ x ∈ b.entries, x.1.size = undoRecSize x.2

/-- Every redo-buffer entry was reserved with exactly the byte size its log
record requires. -/
def redoSizeInv (b : RecordBuffer LogRecord) : Prop :=
  ∀ x ∈ b.entries, x.1.size = x.2.size

instance (b : RecordBuffer UndoRecord) : Decidable (undoSizeInv b) := by
  unfold undoSizeInv; infer_instance

instance (b : RecordBuffer LogRecord) : Decidable (redoSizeInv b) := by
  unfold redoSizeInv; infer_instance

/-! ### Version chains and the system state -/

/-- The per-slot version chains owned by the tables (spec sections 3 and 6):
external to this core, included in the system state only to express what the
staging operations do not touch. -/
def VersionChains : Type := DataTable → TupleSlot → List Addr

/-- A transaction context together with the shared segment pool and the
tables' version chains. -/
structure System where
  ctx : TransactionContext
  pool : RecordBufferSegmentPool
  chains : VersionChains

/-- Lifting `UndoRecordForUpdate` to the system state: the staging call itself
performs no chain installation (linking is the table's responsibility, spec
section 4.5). -/
def System.SysUndoRecordForUpdate (s : System) (table : DataTable)
    (slot : TupleSlot) (redo : ProjectedRow) : Except BufferError Addr × System :=
  match s.ctx.UndoRecordForUpdate s.pool table slot redo with
  | (res, c', p') => (res, { s with ctx := c', pool := p' })

/-- Modelled from the spec: `Table::InstallVersion` as seen from this core (spec section 6) is the
external operation that does link an undo record into a chain. -/
def System.InstallVersion (s : System) (table : DataTable) (slot : TupleSlot)
    (a : Addr) : System :=
  { s with chains := fun t sl =>
      if t = table ∧ sl = slot then a :: s.chains t sl else s.chains t sl }

/-! ### The transaction lifecycle -/

/-- A transaction context in its lifecycle, tracking whether the owning
manager has already performed the commit-time identity replacement. -/
structure TxnState where
  ctx : TransactionContext
  pool : RecordBufferSegmentPool
  committed : Bool

/-- Modelled from the spec: the steps the owning thread and its manager may
take during a transaction's lifetime (spec sections 4.5 and 5) — any number of
staging calls, and a single commit-time store of a committed-range timestamp
into `txn_id_`, performed at most once. -/
inductive Step : TxnState → TxnState → Prop
  | stage (op : StageOp) (s : TxnState) :
      Step s ⟨(applyOp op s.ctx s.pool).2.1, (applyOp op s.ctx s.pool).2.2, s.committed⟩
  | commit (ts : timestamp_t) (s : TxnState) :
      isCommittedTs ts → s.committed = false →
      Step s ⟨s.ctx.TxnIdStore ts, s.pool, true⟩

/-- The state in which a transaction begins: fresh context carrying its
uncommitted id, not yet committed. -/
def TxnState.start (st u : timestamp_t) (p : RecordBufferSegmentPool) : TxnState :=
  ⟨TransactionContext.mkCtx st u, p, false⟩

/-! ### Claim theorems -/

/-- C3: over every sequence of staging calls on one transaction context, each
buffer's entry sequence only ever grows at the end — occupancy is monotone,
previously returned entries keep their address, size and contents, and no
entry is freed, reused or relocated. -/
theorem staging_buffers_monotone (ops : List StageOp) (c : TransactionContext)
    (p : RecordBufferSegmentPool) :
    c.undo_buffer_.entries <+: ((applyOps ops c p).1).undo_buffer_.entries ∧
    c.redo_buffer_.entries <+: ((applyOps ops c p).1).redo_buffer_.entries ∧
    c.undo_buffer_.entries.length ≤ ((applyOps ops c p).1).undo_buffer_.entries.length ∧
    c.redo_buffer_.entries.length ≤ ((applyOps ops c p).1).redo_buffer_.entries.length := by
  obtain ⟨⟨l₁, h₁⟩, ⟨l₂, h₂⟩⟩ := applyOps_entries ops c p
  refine ⟨⟨l₁, h₁.symm⟩, ⟨l₂, h₂.symm⟩, ?_, ?_⟩ <;> simp [h₁, h₂]

/-- C6: every staging call follows the two-phase protocol — the entry is
reserved with exactly the byte size the record type's Size function computes,
and the initialized record is written into that space, so the invariant that
every buffered entry's reserved size equals its record's required size is
preserved by every call; no record ever grows after reservation. -/
theorem two_phase_exact_size (op : StageOp) (c : TransactionContext)
    (p : RecordBufferSegmentPool) (h₁ : undoSizeInv c.undo_buffer_)
    (h₂ : redoSizeInv c.redo_buffer_) :
    undoSizeInv ((applyOp op c p).2.1).undo_buffer_ ∧
    redoSizeInv ((applyOp op c p).2.1).redo_buffer_ := by
  rcases hr : applyOp op c p with ⟨res, c', p'⟩
  cases res with
  | error err =>
      cases op with
      | update t sl r =>
          obtain ⟨hc, -, -⟩ := UndoRecordForUpdate_error hr
          subst hc; exact ⟨h₁, h₂⟩
      | insert t sl i =>
          obtain ⟨hc, -, -⟩ := UndoRecordForInsert_error hr
          subst hc; exact ⟨h₁, h₂⟩
      | write t sl i =>
          obtain ⟨hc, -, -⟩ := StageWrite_error hr
          subst hc; exact ⟨h₁, h₂⟩
  | ok a =>
      cases op with
      | update t sl r =>
          obtain ⟨e, -, hsize, -, hu, -, -, hrb⟩ := UndoRecordForUpdate_ok hr
          constructor
          · intro x hx
            rw [hu] at hx
            rcases List.mem_append.mp hx with hx | hx
            · exact h₁ x hx
            · rcases List.mem_singleton.mp hx with rfl
              simpa [undoRecSize, UndoRecord.Initialize] using hsize
          · intro x hx
            rw [hrb] at hx
            exact h₂ x hx
      | insert t sl i =>
          obtain ⟨e, -, hsize, -, hu, -, -, hrb⟩ := UndoRecordForInsert_ok hr
          constructor
          · intro x hx
            rw [hu] at hx
            rcases List.mem_append.mp hx with hx | hx
            · exact h₁ x hx
            · rcases List.mem_singleton.mp hx with rfl
              simp only [undoRecSize, UndoRecord.InitializeForInsert, hsize,
                UndoRecord.SizeForInsert]
              simp [ProjectedRow.size, ProjectedRowInitializer.InitializeRow,
                ProjectedRowInitializer.ProjectedRowSize]
          · intro x hx
            rw [hrb] at hx
            exact h₂ x hx
      | write t sl i =>
          obtain ⟨e, -, hsize, -, hrd, -, -, hub⟩ := StageWrite_ok hr
          constructor
          · intro x hx
            rw [hub] at hx
            exact h₁ x hx
          · intro x hx
            rw [hrd] at hx
            rcases List.mem_append.mp hx with hx | hx
            · exact h₂ x hx
            · rcases List.mem_singleton.mp hx with rfl
              simpa [RedoRecord.Initialize] using hsize

/-- C6 witness: starting from a fresh context, where both size invariants hold
trivially, one update staging call preserves them. -/
theorem two_phase_exact_size_witness :
    undoSizeInv ((applyOp (.update ⟨7⟩ ⟨1, 2⟩ ⟨[(3, 10)]⟩)
        (TransactionContext.mkCtx 5 999) ⟨4⟩).2.1).undo_buffer_ ∧
    redoSizeInv ((applyOp (.update ⟨7⟩ ⟨1, 2⟩ ⟨[(3, 10)]⟩)
        (TransactionContext.mkCtx 5 999) ⟨4⟩).2.1).redo_buffer_ :=
  two_phase_exact_size (.update ⟨7⟩ ⟨1, 2⟩ ⟨[(3, 10)]⟩)
    (TransactionContext.mkCtx 5 999) ⟨4⟩ (by decide) (by decide)

/-- C7: every successful reservation is of exactly the requested size and lies
contiguously inside a single segment, and a request exceeding the segment
capacity always fails the precondition check, returning the buffer and pool
exactly as they were — nothing is partially allocated. -/
theorem new_entry_contiguous_or_fatal {α : Type} (size : Nat)
    (buf : RecordBuffer α) (pool : RecordBufferSegmentPool) :
    (∀ e b' p', NewEntry size buf pool = (.ok e, b', p') →
        e.size = size ∧ e.off + e.size ≤ segmentCapacity) ∧
    (segmentCapacity < size →
        NewEntry size buf pool = (.error .sizeExceedsSegment, buf, pool)) :=
  ⟨fun _ _ _ h => ⟨(NewEntry_ok h).1, (NewEntry_ok h).2.1⟩,
   fun hs => NewEntry_big buf pool hs⟩

/-- C7 witness: a 56-byte reservation on a fresh buffer lands contiguously in
segment zero, and a 5000-byte request (above the 4096-byte capacity) fails
fatally with buffer and pool untouched. -/
theorem new_entry_contiguous_or_fatal_witness :
    ((⟨0, 0, 56⟩ : Entry).size = 56 ∧
      (⟨0, 0, 56⟩ : Entry).off + (⟨0, 0, 56⟩ : Entry).size ≤ segmentCapacity) ∧
    NewEntry (α := UndoRecord) 5000 RecordBuffer.empty ⟨4⟩
      = (.error .sizeExceedsSegment, RecordBuffer.empty, ⟨4⟩) :=
  ⟨(new_entry_contiguous_or_fatal (α := UndoRecord) 56 RecordBuffer.empty ⟨4⟩).1
      ⟨0, 0, 56⟩ ⟨1, 56, []⟩ ⟨3⟩ rfl,
   (new_entry_contiguous_or_fatal (α := UndoRecord) 5000 RecordBuffer.empty ⟨4⟩).2
      (by decide)⟩

/-- C9: staging an update undo record only consumes space from the undo
buffer — the version chains, the start time, the transaction id and the redo
buffer all come back exactly as they were, whether the call succeeds or
fails. -/
theorem undo_for_update_frame (s : System) (table : DataTable)
    (slot : TupleSlot) (redo : ProjectedRow) :
    ((s.SysUndoRecordForUpdate table slot redo).2).chains = s.chains ∧
    ((s.SysUndoRecordForUpdate table slot redo).2).ctx.start_time_ = s.ctx.start_time_ ∧
    ((s.SysUndoRecordForUpdate table slot redo).2).ctx.txn_id_ = s.ctx.txn_id_ ∧
    ((s.SysUndoRecordForUpdate table slot redo).2).ctx.redo_buffer_ = s.ctx.redo_buffer_ ∧
    ∃ l, ((s.SysUndoRecordForUpdate table slot redo).2).ctx.undo_buffer_.entries
          = s.ctx.undo_buffer_.entries ++ l := by
  unfold System.SysUndoRecordForUpdate
  rcases hr : s.ctx.UndoRecordForUpdate s.pool table slot redo with ⟨res, c', p'⟩
  cases res with
  | error err =>
      obtain ⟨hc, -, -⟩ := UndoRecordForUpdate_error hr
      subst hc
      exact ⟨rfl, rfl, rfl, rfl, [], by simp⟩
  | ok a =>
      obtain ⟨e, -, -, -, hu, hst, hid, hrb⟩ := UndoRecordForUpdate_ok hr
      exact ⟨rfl, hst, hid, hrb, _, hu⟩


/-- C4: a successful undo staging call (update or insert) appends one record
stamped with the context's `txn_id_` as read at the moment of the call, in an
entry reserved with exactly the size computed for the given projected row,
respectively for the fresh-insert initializer. -/
theorem undo_records_stamped_current_txn_id
    (c : TransactionContext) (pool : RecordBufferSegmentPool) (table : DataTable)
    (slot : TupleSlot) (redo : ProjectedRow) (i : ProjectedRowInitializer)
    (a₁ a₂ : Addr) (c₁ c₂ : TransactionContext) (p₁ p₂ : RecordBufferSegmentPool)
    (h₁ : c.UndoRecordForUpdate pool table slot redo = (.ok a₁, c₁, p₁))
    (h₂ : c.UndoRecordForInsert pool table slot i = (.ok a₂, c₂, p₂)) :
    (∃ e r, c₁.undo_buffer_.entries = c.undo_buffer_.entries ++ [(e, r)] ∧
        r.timestamp = c.TxnId ∧ e.size = UndoRecord.Size redo) ∧
    (∃ e r, c₂.undo_buffer_.entries = c.undo_buffer_.entries ++ [(e, r)] ∧
        r.timestamp = c.TxnId ∧ e.size = UndoRecord.SizeForInsert i) := by
  obtain ⟨e₁, -, hs₁, -, hu₁, -, -, -⟩ := UndoRecordForUpdate_ok h₁
  obtain ⟨e₂, -, hs₂, -, hu₂, -, -, -⟩ := UndoRecordForInsert_ok h₂
  exact ⟨⟨e₁, _, hu₁, rfl, hs₁⟩, ⟨e₂, _, hu₂, rfl, hs₂⟩⟩

/-- C4 witness: on a fresh context with `txn_id_ = 999`, both undo staging
calls append a record stamped 999, sized 56 bytes for a one-column row. -/
theorem undo_records_stamped_current_txn_id_witness :
    (∃ e r, (⟨5, 999, ⟨1, 56, [(⟨0, 0, 56⟩, ⟨999, ⟨7⟩, ⟨1, 2⟩,
          .update ⟨[(3, 10)]⟩⟩)]⟩, ⟨0, 0, []⟩⟩ :
            TransactionContext).undo_buffer_.entries
        = (TransactionContext.mkCtx 5 999).undo_buffer_.entries ++ [(e, r)] ∧
        r.timestamp = (TransactionContext.mkCtx 5 999).TxnId ∧
        e.size = UndoRecord.Size ⟨[(3, 10)]⟩) ∧
    (∃ e r, (⟨5, 999, ⟨1, 56, [(⟨0, 0, 56⟩, ⟨999, ⟨7⟩, ⟨1, 2⟩,
          .insert ⟨[(3, 0)]⟩⟩)]⟩, ⟨0, 0, []⟩⟩ :
            TransactionContext).undo_buffer_.entries
        = (TransactionContext.mkCtx 5 999).undo_buffer_.entries ++ [(e, r)] ∧
        r.timestamp = (TransactionContext.mkCtx 5 999).TxnId ∧
        e.size = UndoRecord.SizeForInsert ⟨[3]⟩) :=
  undo_records_stamped_current_txn_id (TransactionContext.mkCtx 5 999) ⟨4⟩
    ⟨7⟩ ⟨1, 2⟩ ⟨[(3, 10)]⟩ ⟨[3]⟩ ⟨0, 0⟩ ⟨0, 0⟩
    ⟨5, 999, ⟨1, 56, [(⟨0, 0, 56⟩, ⟨999, ⟨7⟩, ⟨1, 2⟩, .update ⟨[(3, 10)]⟩⟩)]⟩,
      ⟨0, 0, []⟩⟩
    ⟨5, 999, ⟨1, 56, [(⟨0, 0, 56⟩, ⟨999, ⟨7⟩, ⟨1, 2⟩, .insert ⟨[(3, 0)]⟩⟩)]⟩,
      ⟨0, 0, []⟩⟩
    ⟨3⟩ ⟨3⟩ rfl rfl

/-- C5: a successful `StageWrite` appends one log record whose redo body is
stamped with the transaction's `start_time_` (not its `txn_id_`), carries the
given table and slot, holds the blank initializer-shaped row the caller fills
in, and the returned handle points at that body. -/
theorem stage_write_stamped_start_time
    (c : TransactionContext) (pool : RecordBufferSegmentPool) (table : DataTable)
    (slot : TupleSlot) (i : ProjectedRowInitializer) (a : Addr)
    (c' : TransactionContext) (p' : RecordBufferSegmentPool)
    (h : c.StageWrite pool table slot i = (.ok a, c', p')) :
    ∃ e lr, c'.redo_buffer_.entries = c.redo_buffer_.entries ++ [(e, lr)] ∧
      lr.body.start_time = c.StartTime ∧ lr.body.table = table ∧
      lr.body.slot = slot ∧ lr.body.delta = i.InitializeRow ∧
      a = e.head.GetUnderlyingRecordBodyAs := by
  obtain ⟨e, ha, -, -, hrd, -, -, -⟩ := StageWrite_ok h
  exact ⟨e, _, hrd, rfl, rfl, rfl, rfl, ha⟩

/-- C5 witness: on a fresh context with `start_time_ = 5` and `txn_id_ = 999`,
the staged redo body is stamped 5 and carries table 7 and slot (1, 2). -/
theorem stage_write_stamped_start_time_witness :
    ∃ e lr, (⟨5, 999, ⟨0, 0, []⟩, ⟨1, 32, [(⟨0, 0, 32⟩, ⟨32, ⟨5, ⟨7⟩, ⟨1, 2⟩,
          ⟨[(3, 0)]⟩⟩⟩)]⟩⟩ : TransactionContext).redo_buffer_.entries
      = (TransactionContext.mkCtx 5 999).redo_buffer_.entries ++ [(e, lr)] ∧
      lr.body.start_time = (TransactionContext.mkCtx 5 999).StartTime ∧
      lr.body.table = ⟨7⟩ ∧ lr.body.slot = ⟨1, 2⟩ ∧
      lr.body.delta = ProjectedRowInitializer.InitializeRow ⟨[3]⟩ ∧
      (⟨0, 16⟩ : Addr) = e.head.GetUnderlyingRecordBodyAs :=
  stage_write_stamped_start_time (TransactionContext.mkCtx 5 999) ⟨4⟩
    ⟨7⟩ ⟨1, 2⟩ ⟨[3]⟩ ⟨0, 16⟩
    ⟨5, 999, ⟨0, 0, []⟩, ⟨1, 32, [(⟨0, 0, 32⟩, ⟨32, ⟨5, ⟨7⟩, ⟨1, 2⟩,
      ⟨[(3, 0)]⟩⟩⟩)]⟩⟩
    ⟨3⟩ rfl

/-- C8: under the size precondition of section 4.2, every failure of the three
staging operations is a pool-exhaustion failure that leaves the context and
pool exactly as they were — fatal, with no partial allocation, no retry and no
inline recovery — and whenever the pool can still supply a segment all three
operations succeed. -/
theorem only_abort_path_pool_exhaustion
    (c : TransactionContext) (pool : RecordBufferSegmentPool) (table : DataTable)
    (slot : TupleSlot) (redo : ProjectedRow) (i : ProjectedRowInitializer)
    (h₁ : UndoRecord.Size redo ≤ segmentCapacity)
    (h₂ : UndoRecord.SizeForInsert i ≤ segmentCapacity)
    (h₃ : RedoRecord.Size i ≤ segmentCapacity) :
    (∀ err c' p', c.UndoRecordForUpdate pool table slot redo = (.error err, c', p') →
        err = .poolExhausted ∧ c' = c ∧ p' = pool) ∧
    (∀ err c' p', c.UndoRecordForInsert pool table slot i = (.error err, c', p') →
        err = .poolExhausted ∧ c' = c ∧ p' = pool) ∧
    (∀ err c' p', c.StageWrite pool table slot i = (.error err, c', p') →
        err = .poolExhausted ∧ c' = c ∧ p' = pool) ∧
    (pool.available ≠ 0 →
      (∃ a c' p', c.UndoRecordForUpdate pool table slot redo = (.ok a, c', p')) ∧
      (∃ a c' p', c.UndoRecordForInsert pool table slot i = (.ok a, c', p')) ∧
      (∃ a c' p', c.StageWrite pool table slot i = (.ok a, c', p'))) := by
  refine ⟨?_, ?_, ?_, ?_⟩
  · intro err c' p' h
    obtain ⟨hc, hp, hcl⟩ := UndoRecordForUpdate_error h
    exact ⟨hcl h₁, hc, hp⟩
  · intro err c' p' h
    obtain ⟨hc, hp, hcl⟩ := UndoRecordForInsert_error h
    exact ⟨hcl h₂, hc, hp⟩
  · intro err c' p' h
    obtain ⟨hc, hp, hcl⟩ := StageWrite_error h
    exact ⟨hcl h₃, hc, hp⟩
  · intro hp
    obtain ⟨e₁, b₁, q₁, hne₁⟩ := NewEntry_success c.undo_buffer_ pool h₁ hp
    obtain ⟨e₂, b₂, q₂, hne₂⟩ := NewEntry_success c.undo_buffer_ pool h₂ hp
    obtain ⟨e₃, b₃, q₃, hne₃⟩ := NewEntry_success c.redo_buffer_ pool h₃ hp
    refine ⟨⟨e₁.head,
        ⟨c.start_time_, c.txn_id_,
          b₁.write e₁ (UndoRecord.Initialize c.txn_id_ slot table redo),
          c.redo_buffer_⟩, q₁, ?_⟩,
      ⟨e₂.head,
        ⟨c.start_time_, c.txn_id_,
          b₂.write e₂ (UndoRecord.InitializeForInsert c.txn_id_ slot table i),
          c.redo_buffer_⟩, q₂, ?_⟩,
      ⟨e₃.head.GetUnderlyingRecordBodyAs,
        ⟨c.start_time_, c.txn_id_, c.undo_buffer_,
          b₃.write e₃ (RedoRecord.Initialize c.start_time_ table slot i)⟩, q₃, ?_⟩⟩
    · unfold TransactionContext.UndoRecordForUpdate
      rw [hne₁]
    · unfold TransactionContext.UndoRecordForInsert
      rw [hne₂]
    · unfold TransactionContext.StageWrite
      rw [hne₃]

/-- C8 witness: with one-column rows (56, 56 and 32 bytes, all within the
4096-byte segment capacity), an update staging call on an exhausted pool fails
with exactly the pool-exhaustion error, its context and pool coming back
unchanged, while on a pool with segments left `StageWrite` succeeds. -/
theorem only_abort_path_pool_exhaustion_witness :
    (BufferError.poolExhausted = .poolExhausted ∧
      TransactionContext.mkCtx 5 999 = TransactionContext.mkCtx 5 999 ∧
      (⟨0⟩ : RecordBufferSegmentPool) = ⟨0⟩) ∧
    (∃ a c' p', (TransactionContext.mkCtx 5 999).StageWrite ⟨4⟩ ⟨7⟩ ⟨1, 2⟩ ⟨[3]⟩
        = (.ok a, c', p')) :=
  ⟨(only_abort_path_pool_exhaustion (TransactionContext.mkCtx 5 999) ⟨0⟩
      ⟨7⟩ ⟨1, 2⟩ ⟨[(3, 10)]⟩ ⟨[3]⟩ (by decide) (by decide) (by decide)).1
      .poolExhausted (TransactionContext.mkCtx 5 999) ⟨0⟩ rfl,
   ((only_abort_path_pool_exhaustion (TransactionContext.mkCtx 5 999) ⟨4⟩
      ⟨7⟩ ⟨1, 2⟩ ⟨[(3, 10)]⟩ ⟨[3]⟩ (by decide) (by decide) (by decide)).2.2.2
      (by decide)).2.2⟩

/-- C10: `StageWrite` returns the pointer to the `RedoRecord` body embedded
after the log-record header inside the reserved entry — never the head of the
entry itself — while both undo staging operations return exactly the head of
their reserved chunk. -/
theorem stage_write_returns_embedded_body
    (c : TransactionContext) (pool : RecordBufferSegmentPool) (table : DataTable)
    (slot : TupleSlot) (i : ProjectedRowInitializer) (redo : ProjectedRow)
    (a₁ a₂ a₃ : Addr) (c₁ c₂ c₃ : TransactionContext)
    (p₁ p₂ p₃ : RecordBufferSegmentPool)
    (h₁ : c.StageWrite pool table slot i = (.ok a₁, c₁, p₁))
    (h₂ : c.UndoRecordForUpdate pool table slot redo = (.ok a₂, c₂, p₂))
    (h₃ : c.UndoRecordForInsert pool table slot i = (.ok a₃, c₃, p₃)) :
    (∃ e lr, c₁.redo_buffer_.entries = c.redo_buffer_.entries ++ [(e, lr)] ∧
        a₁ = ⟨e.seg, e.off + logHeaderSize⟩ ∧ a₁ ≠ e.head) ∧
    (∃ e r, c₂.undo_buffer_.entries = c.undo_buffer_.entries ++ [(e, r)] ∧
        a₂ = e.head) ∧
    (∃ e r, c₃.undo_buffer_.entries = c.undo_buffer_.entries ++ [(e, r)] ∧
        a₃ = e.head) := by
  obtain ⟨e₁, ha₁, -, -, hrd, -, -, -⟩ := StageWrite_ok h₁
  obtain ⟨e₂, ha₂, -, -, hu₂, -, -, -⟩ := UndoRecordForUpdate_ok h₂
  obtain ⟨e₃, ha₃, -, -, hu₃, -, -, -⟩ := UndoRecordForInsert_ok h₃
  refine ⟨⟨e₁, _, hrd, ha₁, ?_⟩, ⟨e₂, _, hu₂, ha₂⟩, ⟨e₃, _, hu₃, ha₃⟩⟩
  rw [ha₁]
  intro hcontra
  have hoff : e₁.off + logHeaderSize = e₁.off := congrArg Addr.off hcontra
  simp only [logHeaderSize] at hoff
  omega

/-- C10 witness: on a fresh context, `StageWrite` returns offset 16 (past the
log-record header of the entry at offset 0) while both undo calls return the
heads of their chunks at offset 0. -/
theorem stage_write_returns_embedded_body_witness :
    (∃ e lr, (⟨5, 999, ⟨0, 0, []⟩, ⟨1, 32, [(⟨0, 0, 32⟩, ⟨32, ⟨5, ⟨7⟩, ⟨1, 2⟩,
          ⟨[(3, 0)]⟩⟩⟩)]⟩⟩ : TransactionContext).redo_buffer_.entries
        = (TransactionContext.mkCtx 5 999).redo_buffer_.entries ++ [(e, lr)] ∧
        (⟨0, 16⟩ : Addr) = ⟨e.seg, e.off + logHeaderSize⟩ ∧
        (⟨0, 16⟩ : Addr) ≠ e.head) ∧
    (∃ e r, (⟨5, 999, ⟨1, 56, [(⟨0, 0, 56⟩, ⟨999, ⟨7⟩, ⟨1, 2⟩,
          .update ⟨[(3, 10)]⟩⟩)]⟩, ⟨0, 0, []⟩⟩ :
            TransactionContext).undo_buffer_.entries
        = (TransactionContext.mkCtx 5 999).undo_buffer_.entries ++ [(e, r)] ∧
        (⟨0, 0⟩ : Addr) = e.head) ∧
    (∃ e r, (⟨5, 999, ⟨1, 56, [(⟨0, 0, 56⟩, ⟨999, ⟨7⟩, ⟨1, 2⟩,
          .insert ⟨[(3, 0)]⟩⟩)]⟩, ⟨0, 0, []⟩⟩ :
            TransactionContext).undo_buffer_.entries
        = (TransactionContext.mkCtx 5 999).undo_buffer_.entries ++ [(e, r)] ∧
        (⟨0, 0⟩ : Addr) = e.head) :=
  stage_write_returns_embedded_body (TransactionContext.mkCtx 5 999) ⟨4⟩
    ⟨7⟩ ⟨1, 2⟩ ⟨[3]⟩ ⟨[(3, 10)]⟩ ⟨0, 16⟩ ⟨0, 0⟩ ⟨0, 0⟩
    ⟨5, 999, ⟨0, 0, []⟩, ⟨1, 32, [(⟨0, 0, 32⟩, ⟨32, ⟨5, ⟨7⟩, ⟨1, 2⟩,
      ⟨[(3, 0)]⟩⟩⟩)]⟩⟩
    ⟨5, 999, ⟨1, 56, [(⟨0, 0, 56⟩, ⟨999, ⟨7⟩, ⟨1, 2⟩, .update ⟨[(3, 10)]⟩⟩)]⟩,
      ⟨0, 0, []⟩⟩
    ⟨5, 999, ⟨1, 56, [(⟨0, 0, 56⟩, ⟨999, ⟨7⟩, ⟨1, 2⟩, .insert ⟨[(3, 0)]⟩⟩)]⟩,
      ⟨0, 0, []⟩⟩
    ⟨3⟩ ⟨3⟩ ⟨3⟩ rfl rfl rfl

/-- One lifecycle step preserves the two-phase txn-id invariant: before the
commit step the id is still the original uncommitted one, afterwards it is a
committed-range timestamp. -/
theorem Step_txn_id_inv (u : timestamp_t) (a b : TxnState) (hstep : Step a b)
    (ha : (a.committed = false ∧ a.ctx.txn_id_ = u ∧ isUncommitted a.ctx.txn_id_) ∨
      (a.committed = true ∧ isCommittedTs a.ctx.txn_id_)) :
    (b.committed = false ∧ b.ctx.txn_id_ = u ∧ isUncommitted b.ctx.txn_id_) ∨
      (b.committed = true ∧ isCommittedTs b.ctx.txn_id_) := by
  cases hstep with
  | stage op =>
      have ht := (applyOp_timestamps op a.ctx a.pool).2
      rcases ha with ⟨hcm, hid, hun⟩ | ⟨hcm, hcd⟩
      · exact Or.inl ⟨hcm, by rw [ht]; exact hid, by rw [ht]; exact hun⟩
      · exact Or.inr ⟨hcm, by rw [ht]; exact hcd⟩
  | commit ts s0 hts hnc =>
      exact Or.inr ⟨rfl, hts⟩

/-- C1: starting from an uncommitted-range id `u`, every state a transaction
can reach carries `txn_id_` equal either to `u` (while still in flight) or to
a committed-range timestamp (after the single commit step); no third value is
ever observable through `TxnId`, and once committed the id never changes
again. -/
theorem txn_id_transitions_once (st u : timestamp_t) (p : RecordBufferSegmentPool)
    (hu : isUncommitted u) (s : TxnState)
    (h : Relation.ReflTransGen Step (TxnState.start st u p) s) :
    ((s.committed = false ∧ s.ctx.TxnId = u ∧ isUncommitted s.ctx.TxnId) ∨
      (s.committed = true ∧ isCommittedTs s.ctx.TxnId)) ∧
    (∀ s', Step s s' → s.committed = true →
        s'.ctx.TxnId = s.ctx.TxnId ∧ s'.committed = true) := by
  constructor
  · induction h with
    | refl => exact Or.inl ⟨rfl, rfl, hu⟩
    | tail hab hbc ih => exact Step_txn_id_inv u _ _ hbc ih
  · intro s' hstep hcm
    cases hstep with
    | stage op => exact ⟨(applyOp_timestamps op s.ctx s.pool).2, hcm⟩
    | commit ts s0 hts hnc =>
        rw [hcm] at hnc
        cases hnc

/-- C1 witness: a transaction begun at start time 5 with the uncommitted id
2^63, before its commit step, still shows exactly that id through `TxnId`. -/
theorem txn_id_transitions_once_witness :
    isUncommitted (2 ^ 63) ∧
    ((((TxnState.start 5 (2 ^ 63) ⟨4⟩).committed = false ∧
        (TxnState.start 5 (2 ^ 63) ⟨4⟩).ctx.TxnId = 2 ^ 63 ∧
        isUncommitted (TxnState.start 5 (2 ^ 63) ⟨4⟩).ctx.TxnId) ∨
      ((TxnState.start 5 (2 ^ 63) ⟨4⟩).committed = true ∧
        isCommittedTs (TxnState.start 5 (2 ^ 63) ⟨4⟩).ctx.TxnId)) ∧
    (∀ s', Step (TxnState.start 5 (2 ^ 63) ⟨4⟩) s' →
        (TxnState.start 5 (2 ^ 63) ⟨4⟩).committed = true →
        s'.ctx.TxnId = (TxnState.start 5 (2 ^ 63) ⟨4⟩).ctx.TxnId ∧
        s'.committed = true)) :=
  ⟨by decide,
   txn_id_transitions_once 5 (2 ^ 63) ⟨4⟩ (by decide) _ Relation.ReflTransGen.refl⟩
